import Mathlib

/-!
Shallow embedding of the core of the libbeat_v8 publishing pipeline, covering
the memory-queue producer API (publisher/queue/memqueue/internal_api.go) and
the disk-queue constructor (publisher/queue/diskqueue/queue.go), together with
theorems settling the specification claims about them.

Machine integers: Go uint64 values are modelled as Nat together with explicit
reduction modulo 2^64 wherever the Go code can wrap (increment, doubling,
subtraction); Go int (64-bit) values produced by uint64-to-int conversion are
modelled by an explicit reinterpretation function into Int.
-/

def UINT64_MOD : Nat := 2 ^ 64

/-- Go conversion int(x) of a uint64 value x < 2^64: two's-complement
reinterpretation into a signed 64-bit integer. -/
def goIntOfUint64 (x : Nat) : Int :=
  if x < 2 ^ 63 then (x : Int) else (x : Int) - (UINT64_MOD : Int)

/-- Go subtraction a - b on uint64 operands (each < 2^64), which wraps
modulo 2^64. -/
def sub64 (a b : Nat) : Nat := (a + UINT64_MOD - b % UINT64_MOD) % UINT64_MOD

/-- Reduction of an Int into the two's-complement range
[-2^63, 2^63) of a Go 64-bit signed int. -/
def wrapInt64 (x : Int) : Int := (x + 2 ^ 63) % 2 ^ 64 - 2 ^ 63

/-- Go addition a + b on int (64-bit signed) operands, which wraps on
overflow. -/
def addInt64 (a b : Int) : Int := wrapInt64 (a + b)

namespace memqueue

/-- Model of struct pushRequest (internal_api.go). The queue entry payload is
opaque and modelled as a Nat; the producer pointer field is nil (none) for a
forgetfulProducer and non-nil for an ackProducer. -/
structure pushRequest where
  event : Nat
  eventSize : Nat
  producer : Option Unit
  producerID : Nat
deriving DecidableEq, Repr

/-- Model of forgetfulProducer.makePushRequest: all fields other than the
event keep their Go zero values (producer pointer nil, producerID 0). -/
def forgetfulMakePushRequest (event : Nat) : pushRequest :=
  { event := event, eventSize := 0, producer := none, producerID := 0 }

/-- Model of ackProducer.makePushRequest: the request carries
producerID = producedCount + 1 (uint64 arithmetic), so that the default
lastACK of 0 is a valid initial state and 1 is the first real id. -/
def ackMakePushRequest (producedCount : Nat) (event : Nat) : pushRequest :=
  { event := event, eventSize := 0, producer := some ()
    producerID := (producedCount + 1) % UINT64_MOD }

/-- Readiness of the channels consulted by openState.publish and
openState.tryPublish at the moment their select statements execute:
whether a send on st.events can proceed immediately, whether the broker
response on req.resp is available, and whether st.done respectively the
queue-wide closing channel have been closed. -/
structure SelEnv where
  eventsReady : Bool
  respReady : Bool
  doneClosed : Bool
  closingClosed : Bool
deriving DecidableEq, Repr

/-- Possible result of one publish / tryPublish call: the call returned
(id, true) after the request was accepted, the call returned (0, false),
or the call is suspended because no select case is ready. -/
inductive PubOutcome where
  | ok (sent : pushRequest) (id : Nat)
  | fail
  | blocked
deriving DecidableEq, Repr

/-- Model of the optional queue.Encoder held by openState: EncodeEntry
rewrites the entry and reports its encoded size. -/
def applyEncoder (enc : Option (Nat → Nat × Nat)) (req : pushRequest) :
    pushRequest :=
  match enc with
  | none => req
  | some f =>
    let r := f req.event
    { req with event := r.1, eventSize := r.2 }

/-- Inner select of openState.publish / openState.tryPublish, executed after
the request was written to st.events: receive the assigned entry id from
req.resp, or observe queue shutdown on st.queueClosing. A Go select chooses
nondeterministically among the ready cases, so the model returns the list of
all possible outcomes; with no case ready the goroutine suspends. -/
def innerWaitOutcomes (env : SelEnv) (sent : pushRequest) (respId : Nat) :
    List PubOutcome :=
  let ready :=
    (if env.respReady then [PubOutcome.ok sent respId] else []) ++
      (if env.closingClosed then [PubOutcome.fail] else [])
  if ready.isEmpty then [PubOutcome.blocked] else ready

/-- Model of openState.publish (internal_api.go lines 177-203): encode the
request if an encoder is configured, then select over sending on st.events,
st.done being closed, and st.queueClosing being closed; a successful send is
followed by the inner wait for the broker response. -/
def publishOutcomes (enc : Option (Nat → Nat × Nat)) (env : SelEnv)
    (req : pushRequest) (respId : Nat) : List PubOutcome :=
  let sent := applyEncoder enc req
  let ready :=
    (if env.eventsReady then innerWaitOutcomes env sent respId else []) ++
      (if env.doneClosed then [PubOutcome.fail] else []) ++
        (if env.closingClosed then [PubOutcome.fail] else [])
  if ready.isEmpty then [PubOutcome.blocked] else ready

/-- Model of openState.tryPublish (internal_api.go lines 205-231): identical
to publish except that the outer select has only the st.events send case and
the st.done case, plus a default branch returning (0, false) that fires
exactly when no other case is ready. -/
def tryPublishOutcomes (enc : Option (Nat → Nat × Nat)) (env : SelEnv)
    (req : pushRequest) (respId : Nat) : List PubOutcome :=
  let sent := applyEncoder enc req
  let ready :=
    (if env.eventsReady then innerWaitOutcomes env sent respId else []) ++
      (if env.doneClosed then [PubOutcome.fail] else [])
  if ready.isEmpty then [PubOutcome.fail] else ready

/-- One call to ackProducer.Publish or ackProducer.TryPublish as far as the
per-producer counter is concerned: the push request carries
producerID = producedCount + 1, and producedCount is incremented exactly when
the underlying openState call reported published = true. The Bool oracle
records that report. Returns the new producedCount together with the
producerID the request carried and whether it was accepted. -/
def ackPublishStep (producedCount : Nat) (accepted : Bool) :
    Nat × (Nat × Bool) :=
  let pid := (producedCount + 1) % UINT64_MOD
  (if accepted then (producedCount + 1) % UINT64_MOD else producedCount,
    (pid, accepted))

/-- Run of an ackProducer over a sequence of Publish / TryPublish calls whose
acceptance results are given by the oracle list; collects for each call the
producerID its push request carried and whether it was accepted. -/
def runAckProducer (producedCount : Nat) : List Bool → List (Nat × Bool)
  | [] => []
  | a :: rest =>
    let s := ackPublishStep producedCount a
    s.2 :: runAckProducer s.1 rest

/-- The producerIDs carried by the accepted calls of a producer run, in call
order. -/
def acceptedIDs (l : List (Nat × Bool)) : List Nat :=
  (l.filter (fun r => r.2)).map (fun r => r.1)

/-- Every possible outcome of the call is the rejection return (0, false);
in particular the call neither stays blocked nor yields an entry id. -/
def allFailOutcomes (l : List PubOutcome) : Prop :=
  ∀ o ∈ l, o = PubOutcome.fail

/-- Model of the broker fields newProducer reads: the shared push channel and
the queue-wide closing channel, identified by opaque channel identities. -/
structure brokerModel where
  pushChan : Nat
  closingChan : Nat
deriving DecidableEq, Repr

/-- Model of struct openState as built by newProducer: the freshly made done
channel, the broker's closing channel and push channel, and the optional
encoder (identified opaquely). -/
structure openStateModel where
  done : Nat
  queueClosing : Nat
  events : Nat
  encoder : Option Nat
deriving DecidableEq, Repr

/-- Model of the two producer kinds newProducer can return: an ackProducer
(with producedCount, the installed callback and lastACK of its produce
state, and its openState) or a forgetfulProducer. Callbacks are identified
opaquely by a Nat. -/
inductive ProducerModel where
  | ackP (broker : brokerModel) (producedCount : Nat) (stateCb : Option Nat)
      (lastACK : Nat) (openState : openStateModel)
  | forgetful (broker : brokerModel) (openState : openStateModel)
deriving DecidableEq, Repr

/-- Model of newProducer (internal_api.go lines 106-121): build the openState
from the broker's channels and the encoder, then return an ackProducer with
the callback installed when cb is non-nil, and a forgetfulProducer otherwise.
The freshly allocated done channel identity is a parameter. -/
def newProducer (b : brokerModel) (cb : Option Nat) (encoder : Option Nat)
    (freshDone : Nat) : ProducerModel :=
  let os : openStateModel :=
    { done := freshDone, queueClosing := b.closingChan, events := b.pushChan
      encoder := encoder }
  match cb with
  | some c => ProducerModel.ackP b 0 (some c) 0 os
  | none => ProducerModel.forgetful b os

/-- The openState shared by either producer kind. -/
def ProducerModel.openStateOf : ProducerModel → openStateModel
  | .ackP _ _ _ _ os => os
  | .forgetful _ os => os

/-- Whether the producer tracks ACKs (is an ackProducer). -/
def ProducerModel.isAckTracking : ProducerModel → Bool
  | .ackP _ _ _ _ _ => true
  | .forgetful _ _ => false

/-- The ACK callback installed in the produce state, if the producer is an
ackProducer. -/
def ProducerModel.cbOf : ProducerModel → Option Nat
  | .ackP _ _ cb _ _ => cb
  | .forgetful _ _ => none

end memqueue

namespace diskqueue

/-- The Settings fields consulted by NewQueue's capacity check
(queue.go lines 120-127): both are uint64 byte counts. -/
structure Settings where
  maxBufferSize : Nat
  maxSegmentSize : Nat
deriving DecidableEq, Repr

/-- Model of struct queuePosition: the persisted read position
(segmentID, frameIndex, byteIndex), all uint64. -/
structure queuePosition where
  segmentID : Nat
  frameIndex : Nat
  byteIndex : Nat
deriving DecidableEq, Repr

/-- Model of a scanned queueSegment as NewQueue consumes it: its id, its
frame count, its byte count, and the value of its headerSize() method
(which depends on the segment's schema version and is therefore carried as
data). -/
structure queueSegment where
  id : Nat
  frameCount : Nat
  byteCount : Nat
  headerSize : Nat
deriving DecidableEq, Repr

/-- Result of queuePositionFromPath on the state file. Modelled from the
spec: the function itself (state_file reading) is outside the embedded
sources; per the spec, readers tolerate missing or stale state files, and on
any read error NewQueue proceeds with the zero position. errNotExist is the
os.ErrNotExist case (no warning logged), errOther any other read failure
(warning logged); both are tolerated by NewQueue. -/
inductive stateReadResult where
  | ok (pos : queuePosition)
  | errNotExist
  | errOther
deriving DecidableEq, Repr

/-- Outcome of the filesystem effects NewQueue performs, in program order:
os.MkdirAll on the queue directory, queuePositionFromPath on the state file,
os.OpenFile of the state file with O_WRONLY|O_CREATE, and
scanExistingSegments of the queue directory (which yields the existing
segments in increasing id order, or fails). -/
structure FsEnv where
  mkdirOk : Bool
  stateRead : stateReadResult
  openStateFileOk : Bool
  scan : Except Unit (List queueSegment)
deriving Repr

/-- The position queuePositionFromPath handed back to NewQueue: the parsed
position on success, the Go zero value on failure. -/
def loadedPosition (env : FsEnv) : queuePosition :=
  match env.stateRead with
  | .ok p => p
  | .errNotExist => ⟨0, 0, 0⟩
  | .errOther => ⟨0, 0, 0⟩

/-- Adjustment NewQueue applies to the loaded position (queue.go lines
142-150): if frameIndex is 0 — as in state files written by older versions
that lack the field — byteIndex is reset to 0. -/
def adjustLoadedPosition (p : queuePosition) : queuePosition :=
  if p.frameIndex = 0 then { p with byteIndex := 0 } else p

/-- Everything NewQueue computes after its guards succeed, as far as the
claims reach: the arguments of the observer calls MaxBytes and Restore, and
the initial segments metadata (reading list, acked list, next segment id,
initial read position). -/
structure InitResult where
  observerMaxBytes : Int
  restoreEventCount : Int
  restoreByteCount : Int
  readingSegments : List queueSegment
  ackedSegments : List queueSegment
  nextSegmentID : Nat
  nextReadPosition : queuePosition
deriving DecidableEq, Repr

/-- The position advance of NewQueue (queue.go lines 196-199): if the queue
position is older than all surviving segments, advance it to the beginning
of the first one (its segment id, frame index 0, byte index 0). -/
def advanceToFirstSegment (pos : queuePosition)
    (remaining : List queueSegment) : queuePosition :=
  match remaining.head? with
  | some firstSeg =>
    if pos.segmentID < firstSeg.id then ⟨firstSeg.id, 0, 0⟩ else pos
  | none => pos

/-- The segment-processing tail of NewQueue (queue.go lines 163-236), given
the adjusted read position and the scanned segments: compute nextSegmentID
from the last segment, accumulate the initial event and byte counts reported
to observer.Restore (deducting each segment's header size, in uint64 then
int arithmetic as in Go), move segments older than the read position's
segmentID to the acked list, and advance the position to the start of the
first surviving segment when it predates all of them. -/
def initFromSegments (s : Settings) (nextReadPosition : queuePosition)
    (initialSegments : List queueSegment) : InitResult :=
  let nextSegmentID : Nat :=
    match initialSegments.getLast? with
    | some lastSeg => (lastSeg.id + 1) % UINT64_MOD
    | none => 0
  let initialEventCount : Int :=
    initialSegments.foldl
      (fun acc seg => addInt64 acc (goIntOfUint64 seg.frameCount)) 0
  let initialByteCount : Int :=
    initialSegments.foldl
      (fun acc seg =>
        addInt64 acc (goIntOfUint64 (sub64 seg.byteCount seg.headerSize)))
      0
  let readSegmentID := nextReadPosition.segmentID
  let ackedSegments :=
    initialSegments.takeWhile (fun seg => seg.id < readSegmentID)
  let remaining :=
    initialSegments.dropWhile (fun seg => seg.id < readSegmentID)
  let finalReadPosition := advanceToFirstSegment nextReadPosition remaining
  { observerMaxBytes := goIntOfUint64 s.maxBufferSize
    restoreEventCount := initialEventCount
    restoreByteCount := initialByteCount
    readingSegments := remaining
    ackedSegments := ackedSegments
    nextSegmentID := nextSegmentID
    nextReadPosition := finalReadPosition }

/-- Error message of the capacity-configuration check. -/
def bufferSizeErrMsg : String :=
  "disk queue buffer size must be at least twice the segment size"

/-- Error message when the queue directory cannot be created. -/
def mkdirErrMsg : String := "couldn't create disk queue directory"

/-- Error message when the state file cannot be opened for writing. -/
def stateFileErrMsg : String := "couldn't write to state file"

/-- Error message when scanning the existing segments fails. -/
def scanErrMsg : String := "couldn't scan existing segments"

/-- Model of NewQueue (queue.go lines 107-245): reject the settings when
MaxBufferSize is positive but below twice MaxSegmentSize (uint64 doubling);
create the directory; load the persisted position, tolerating read errors
(adjustLoadedPosition of loadedPosition, computed in the source before the
state file is opened and used only in the success branch); open the state
file for writing, failing fatally on error; scan the existing segments;
then compute the initial metadata via initFromSegments. -/
def NewQueueModel (s : Settings) (env : FsEnv) : Except String InitResult :=
  if s.maxBufferSize > 0 ∧
      s.maxBufferSize < (s.maxSegmentSize * 2) % UINT64_MOD then
    .error bufferSizeErrMsg
  else if env.mkdirOk = false then .error mkdirErrMsg
  else if env.openStateFileOk = false then .error stateFileErrMsg
  else
    match env.scan with
    | .error _ => .error scanErrMsg
    | .ok initialSegments =>
      .ok (initFromSegments s (adjustLoadedPosition (loadedPosition env))
        initialSegments)

/-- Whether a NewQueue result is an error (no queue was created). -/
def resultIsError : Except String InitResult → Bool
  | .error _ => true
  | .ok _ => false

/-- The channels of a running diskQueue that Close can touch: the close
channel (signalling shutdown) and the done channel (reporting completed
shutdown); each is modelled by whether it has been closed. -/
structure diskQueueChans where
  closeClosed : Bool
  doneClosed : Bool
deriving DecidableEq, Repr

/-- Go run-time panic, raised by close() on an already-closed channel. -/
inductive goPanic where
  | closeOfClosedChan
deriving DecidableEq, Repr

/-- Model of diskQueue.Close (queue.go lines 251-257): close(dq.close) and
return nil. Go's close panics when the channel is already closed; otherwise
the only state change is marking the close channel closed. The returned
error is always nil (modelled as none). -/
def diskQueueClose (dq : diskQueueChans) :
    Except goPanic (diskQueueChans × Option String) :=
  if dq.closeClosed then .error goPanic.closeOfClosedChan
  else .ok ({ dq with closeClosed := true }, none)

end diskqueue

namespace memqueue

/-- A run step with accepted = true emits the producerID and increments the
counter; the emitted pair is kept by acceptedIDs. -/
theorem acceptedIDs_cons_true (n : Nat) (l : List (Nat × Bool)) :
    acceptedIDs ((n, true) :: l) = n :: acceptedIDs l := by
  simp [acceptedIDs]

/-- A run step with accepted = false is dropped by acceptedIDs. -/
theorem acceptedIDs_cons_false (n : Nat) (l : List (Nat × Bool)) :
    acceptedIDs ((n, false) :: l) = acceptedIDs l := by
  simp [acceptedIDs]

/-- Generalized counter invariant: starting from producedCount c, as long as
the counter cannot wrap, the accepted producerIDs are exactly
c + 1, c + 2, ... in order. -/
theorem runAckProducer_ids (accepts : List Bool) :
    ∀ c : Nat, c + accepts.count true < UINT64_MOD →
      acceptedIDs (runAckProducer c accepts) =
        List.range' (c + 1) (accepts.count true) := by
  induction accepts with
  | nil => intro c _; simp [runAckProducer, acceptedIDs]
  | cons a rest ih =>
    intro c h
    cases a with
    | true =>
      rw [List.count_cons_self] at h ⊢
      have hmod : (c + 1) % UINT64_MOD = c + 1 := Nat.mod_eq_of_lt (by omega)
      have hstep :
          runAckProducer c (true :: rest) =
            (c + 1, true) :: runAckProducer (c + 1) rest := by
        simp [runAckProducer, ackPublishStep, hmod]
      rw [hstep, acceptedIDs_cons_true, List.range'_succ]
      exact congrArg (List.cons (c + 1)) (ih (c + 1) (by omega))
    | false =>
      have hcnt : (false :: rest).count true = rest.count true := by
        simp [List.count_cons]
      rw [hcnt] at h ⊢
      have hstep :
          runAckProducer c (false :: rest) =
            ((c + 1) % UINT64_MOD, false) :: runAckProducer c rest := by
        simp [runAckProducer, ackPublishStep]
      rw [hstep, acceptedIDs_cons_false]
      exact ih c h

/-- C1: for an ackProducer (created with producedCount 0), each push request
carries producerID = producedCount + 1 and producedCount advances exactly on
accepted publishes, so the producerIDs of the accepted Publish / TryPublish
calls form the consecutive sequence 1, 2, 3, ...; a rejected publish
consumes no id. The hypothesis rules out wrap-around of the uint64
counter. -/
theorem ackProducer_accepted_ids_consecutive (accepts : List Bool)
    (h : accepts.count true < UINT64_MOD) :
    acceptedIDs (runAckProducer 0 accepts) =
      List.range' 1 (accepts.count true) := by
  simpa using runAckProducer_ids accepts 0 (by omega)

/-- Witness for C1 at a concrete run: accept, reject, accept, accept yields
producerIDs 1, 2, 3 for the accepted calls. -/
theorem ackProducer_accepted_ids_consecutive_witness :
    acceptedIDs (runAckProducer 0 [true, false, true, true]) =
      List.range' 1 ([true, false, true, true].count true) :=
  ackProducer_accepted_ids_consecutive [true, false, true, true] (by decide)

/-- C3: when the broker's push channel cannot immediately accept the request
and the producer is not already closed, tryPublish takes the default branch
of its select: the only possible outcome is an immediate (0, false) return,
never a suspension. -/
theorem tryPublish_never_waits (enc : Option (Nat → Nat × Nat)) (env : SelEnv)
    (req : pushRequest) (respId : Nat)
    (hev : env.eventsReady = false) (hdone : env.doneClosed = false) :
    tryPublishOutcomes enc env req respId = [PubOutcome.fail] := by
  simp [tryPublishOutcomes, hev, hdone]

/-- Witness for C3 at a concrete environment with a full push channel while
the queue is closing. -/
theorem tryPublish_never_waits_witness :
    tryPublishOutcomes none ⟨false, false, false, true⟩
        (forgetfulMakePushRequest 5) 9 = [PubOutcome.fail] :=
  tryPublish_never_waits none ⟨false, false, false, true⟩
    (forgetfulMakePushRequest 5) 9 rfl rfl

/-- C4: when a Publish or TryPublish is waiting on the broker (the push
channel cannot accept the request) and the queue is closing or the
producer's done channel has been closed, every possible outcome of either
call is the QueueClosed return (0, false); in particular the waiting Publish
is unblocked rather than left suspended, and no entry id is returned. -/
theorem publish_unblocked_on_close (enc : Option (Nat → Nat × Nat))
    (env : SelEnv) (req : pushRequest) (respId : Nat)
    (hev : env.eventsReady = false)
    (hclosed : env.doneClosed = true ∨ env.closingClosed = true) :
    allFailOutcomes (publishOutcomes enc env req respId) ∧
      allFailOutcomes (tryPublishOutcomes enc env req respId) := by
  cases hd : env.doneClosed <;> cases hc : env.closingClosed <;>
    simp_all [publishOutcomes, tryPublishOutcomes, allFailOutcomes]

/-- Witness for C4 at a concrete environment: push channel full and producer
done channel closed. -/
theorem publish_unblocked_on_close_witness :
    allFailOutcomes (publishOutcomes none ⟨false, true, true, false⟩
        (forgetfulMakePushRequest 1) 7) ∧
      allFailOutcomes (tryPublishOutcomes none ⟨false, true, true, false⟩
        (forgetfulMakePushRequest 1) 7) :=
  publish_unblocked_on_close none ⟨false, true, true, false⟩
    (forgetfulMakePushRequest 1) 7 rfl (Or.inl rfl)

/-- C9: newProducer returns an ACK-tracking producer with the callback
installed in its produce state exactly when the supplied callback is
non-nil, and a forgetful producer otherwise; either producer's openState is
built from the same broker push channel, queue-closing channel, fresh done
channel and encoder. -/
theorem newProducer_ack_tracking_iff (b : brokerModel)
    (cb encoder : Option Nat) (freshDone : Nat) :
    (newProducer b cb encoder freshDone).isAckTracking = cb.isSome ∧
      (newProducer b cb encoder freshDone).openStateOf =
        ⟨freshDone, b.closingChan, b.pushChan, encoder⟩ ∧
      (newProducer b cb encoder freshDone).cbOf = cb := by
  cases cb <;>
    simp [newProducer, ProducerModel.isAckTracking, ProducerModel.openStateOf,
      ProducerModel.cbOf]

end memqueue

namespace diskqueue

/-- The frameIndex-based byteIndex adjustment never moves the segmentID. -/
theorem adjustLoadedPosition_segmentID (p : queuePosition) :
    (adjustLoadedPosition p).segmentID = p.segmentID := by
  unfold adjustLoadedPosition
  split <;> rfl

/-- Inversion of a successful NewQueueModel run: the scan succeeded and the
result is initFromSegments applied to the adjusted loaded position. -/
theorem newQueueModel_ok_elim (s : Settings) (env : FsEnv) (init : InitResult)
    (h : NewQueueModel s env = .ok init) :
    ∃ segs, env.scan = .ok segs ∧
      init = initFromSegments s (adjustLoadedPosition (loadedPosition env))
        segs := by
  unfold NewQueueModel at h
  split at h
  next => simp at h
  next =>
    split at h
    next => simp at h
    next =>
      split at h
      next => simp at h
      next =>
        split at h
        next => simp at h
        next segs heq =>
          exact ⟨segs, heq, by injection h with h2; exact h2.symm⟩

/-- On a list of segments sorted by strictly increasing id, the prefix of
segments with id below r is the set of all such segments. -/
theorem takeWhile_lt_eq_filter (r : Nat) (l : List queueSegment)
    (hl : l.Pairwise (fun a b => a.id < b.id)) :
    l.takeWhile (fun seg => seg.id < r) = l.filter (fun seg => seg.id < r) := by
  induction l with
  | nil => rfl
  | cons a t ih =>
    rw [List.pairwise_cons] at hl
    obtain ⟨ha, ht⟩ := hl
    by_cases hp : a.id < r
    · simp [List.takeWhile_cons, List.filter_cons, hp, ih ht]
    · have hall : ∀ b ∈ t, ¬b.id < r := fun b hb => by
        have := ha b hb; omega
      rw [List.takeWhile_cons, List.filter_cons,
        if_neg (by simpa using hp), if_neg (by simpa using hp)]
      symm
      rw [List.filter_eq_nil_iff]
      intro b hb
      simpa using hall b hb

/-- On a list of segments sorted by strictly increasing id, dropping the
prefix of segments with id below r leaves exactly the segments with
id at least r. -/
theorem dropWhile_lt_eq_filter (r : Nat) (l : List queueSegment)
    (hl : l.Pairwise (fun a b => a.id < b.id)) :
    l.dropWhile (fun seg => seg.id < r) =
      l.filter (fun seg => r ≤ seg.id) := by
  induction l with
  | nil => rfl
  | cons a t ih =>
    rw [List.pairwise_cons] at hl
    obtain ⟨ha, ht⟩ := hl
    by_cases hp : a.id < r
    · have hnle : ¬r ≤ a.id := by omega
      simp [List.dropWhile_cons, List.filter_cons, hp, hnle, ih ht]
    · have hge : r ≤ a.id := by omega
      have hall : ∀ b ∈ t, r ≤ b.id := fun b hb => by
        have := ha b hb; omega
      rw [List.dropWhile_cons, List.filter_cons,
        if_neg (by simpa using hp), if_pos (by simpa using hge)]
      congr 1
      symm
      rw [List.filter_eq_self]
      intro b hb
      simpa using hall b hb

/-- The advance step actually advances when the position's segmentID
precedes the first surviving segment. -/
theorem advanceToFirstSegment_advances (pos : queuePosition)
    (remaining : List queueSegment) (f : queueSegment)
    (hf : remaining.head? = some f) (hlt : pos.segmentID < f.id) :
    advanceToFirstSegment pos remaining = ⟨f.id, 0, 0⟩ := by
  unfold advanceToFirstSegment
  rw [hf]
  simp [hlt]

/-- C6: when NewQueue loads the persisted read position, byteIndex is reset
to 0 exactly when the loaded frameIndex is 0 (segmentID and frameIndex are
kept); a loaded position with frameIndex > 0 is kept unchanged. -/
theorem newQueue_loaded_byteIndex_reset (env : FsEnv) (p : queuePosition)
    (hread : env.stateRead = .ok p) :
    (p.frameIndex = 0 →
      adjustLoadedPosition (loadedPosition env) = ⟨p.segmentID, 0, 0⟩) ∧
      (0 < p.frameIndex → adjustLoadedPosition (loadedPosition env) = p) := by
  have hl : loadedPosition env = p := by simp [loadedPosition, hread]
  rw [hl]
  constructor
  · intro h0
    cases p with
    | mk sid fi bi =>
      simp only at h0
      simp [adjustLoadedPosition, h0]
  · intro hpos
    have hne : p.frameIndex ≠ 0 := by omega
    simp [adjustLoadedPosition, hne]

/-- Witness for C6: a loaded position with frameIndex 0 has its byteIndex
reset, one with frameIndex 3 is kept. -/
theorem newQueue_loaded_byteIndex_reset_witness :
    adjustLoadedPosition
        (loadedPosition ⟨true, .ok ⟨5, 0, 7⟩, true, .ok []⟩) = ⟨5, 0, 0⟩ ∧
      adjustLoadedPosition
        (loadedPosition ⟨true, .ok ⟨6, 3, 7⟩, true, .ok []⟩) = ⟨6, 3, 7⟩ :=
  ⟨(newQueue_loaded_byteIndex_reset ⟨true, .ok ⟨5, 0, 7⟩, true, .ok []⟩
      ⟨5, 0, 7⟩ rfl).1 rfl,
    (newQueue_loaded_byteIndex_reset ⟨true, .ok ⟨6, 3, 7⟩, true, .ok []⟩
      ⟨6, 3, 7⟩ rfl).2 (by decide)⟩

/-- C2 counterexample: with MaxBufferSize = 0 and MaxSegmentSize = 1 we have
MaxBufferSize < 2 × MaxSegmentSize, yet NewQueue does not return an error
(the check is guarded by MaxBufferSize > 0, since 0 means unbounded), so the
claim as stated is false. -/
theorem newQueue_bufferSize_claim_counterexample :
    (Settings.mk 0 1).maxBufferSize < 2 * (Settings.mk 0 1).maxSegmentSize ∧
      resultIsError
        (NewQueueModel ⟨0, 1⟩ ⟨true, .errNotExist, true, .ok []⟩) = false :=
  ⟨by decide, rfl⟩

/-- C2 (amended): NewQueue returns the fatal configuration error exactly on
settings with 0 < MaxBufferSize < 2 × MaxSegmentSize (uint64 product);
MaxBufferSize = 0 (unbounded) skips the check, and whenever the check passes
construction proceeds (succeeding when the remaining startup steps
succeed). -/
theorem newQueue_bufferSize_check (s : Settings) (env : FsEnv) :
    (s.maxBufferSize > 0 ∧
        s.maxBufferSize < (s.maxSegmentSize * 2) % UINT64_MOD →
      NewQueueModel s env = .error bufferSizeErrMsg) ∧
      (¬(s.maxBufferSize > 0 ∧
          s.maxBufferSize < (s.maxSegmentSize * 2) % UINT64_MOD) →
        env.mkdirOk = true → env.openStateFileOk = true →
        ∀ segs, env.scan = .ok segs →
          resultIsError (NewQueueModel s env) = false) := by
  constructor
  · intro h
    simp only [NewQueueModel]
    rw [if_pos h]
  · intro hn hmk hop segs hscan
    simp only [NewQueueModel]
    rw [if_neg hn]
    simp [hmk, hop, hscan, resultIsError]

/-- Witness for C2 (amended): MaxBufferSize 1 with MaxSegmentSize 1 is
rejected; MaxBufferSize 4 with MaxSegmentSize 2 passes and the queue is
constructed. -/
theorem newQueue_bufferSize_check_witness :
    NewQueueModel ⟨1, 1⟩ ⟨true, .errNotExist, true, .ok []⟩ =
        .error bufferSizeErrMsg ∧
      resultIsError
        (NewQueueModel ⟨4, 2⟩ ⟨true, .errNotExist, true, .ok []⟩) = false :=
  ⟨(newQueue_bufferSize_check ⟨1, 1⟩ ⟨true, .errNotExist, true, .ok []⟩).1
      (by decide),
    (newQueue_bufferSize_check ⟨4, 2⟩ ⟨true, .errNotExist, true, .ok []⟩).2
      (by decide) rfl rfl [] rfl⟩

/-- C7: NewQueue treats the state file asymmetrically. With the capacity
check passed and the directory created: a failed read of the state file is
tolerated (construction proceeds, falling back to the zero position and
hence to the start of the oldest existing segment), while failure to open
the state file for writing with O_WRONLY|O_CREATE makes NewQueue return the
fatal startup error. -/
theorem newQueue_stateFile_asymmetry (s : Settings) (env : FsEnv)
    (hbuf : ¬(s.maxBufferSize > 0 ∧
        s.maxBufferSize < (s.maxSegmentSize * 2) % UINT64_MOD))
    (hmk : env.mkdirOk = true) :
    (env.openStateFileOk = false →
        NewQueueModel s env = .error stateFileErrMsg) ∧
      (env.openStateFileOk = true → env.stateRead = .errOther →
        ∀ segs, env.scan = .ok segs →
          resultIsError (NewQueueModel s env) = false ∧
            ∀ firstSeg, segs.head? = some firstSeg →
              ∃ init, NewQueueModel s env = .ok init ∧
                init.nextReadPosition = ⟨firstSeg.id, 0, 0⟩) := by
  constructor
  · intro hop
    simp only [NewQueueModel]
    rw [if_neg hbuf]
    simp [hmk, hop]
  · intro hop hread segs hscan
    have hmodel : NewQueueModel s env =
        .ok (initFromSegments s ⟨0, 0, 0⟩ segs) := by
      simp only [NewQueueModel]
      rw [if_neg hbuf]
      simp [hmk, hop, hscan, loadedPosition, hread, adjustLoadedPosition]
    constructor
    · rw [hmodel]; rfl
    · intro firstSeg hhead
      refine ⟨initFromSegments s ⟨0, 0, 0⟩ segs, hmodel, ?_⟩
      have hdrop : segs.dropWhile (fun seg => seg.id < (0 : Nat)) = segs := by
        cases segs with
        | nil => rfl
        | cons x t => simp [List.dropWhile_cons]
      have hnext : (initFromSegments s ⟨0, 0, 0⟩ segs).nextReadPosition =
          advanceToFirstSegment ⟨0, 0, 0⟩
            (segs.dropWhile (fun seg => seg.id < (0 : Nat))) := rfl
      rw [hnext, hdrop]
      unfold advanceToFirstSegment
      rw [hhead]
      by_cases hx : (0 : Nat) < firstSeg.id
      · simp [hx]
      · have h0 : firstSeg.id = 0 := by omega
        simp [h0]

/-- Witness for C7: a queue with an unreadable state file and one existing
segment (id 3) starts at that segment's start, while an unwritable state
file aborts construction. -/
theorem newQueue_stateFile_asymmetry_witness :
    NewQueueModel ⟨0, 100⟩ ⟨true, .errOther, false, .ok []⟩ =
        .error stateFileErrMsg ∧
      resultIsError
        (NewQueueModel ⟨0, 100⟩
          ⟨true, .errOther, true, .ok [⟨3, 1, 20, 8⟩]⟩) = false ∧
      ∃ init,
        NewQueueModel ⟨0, 100⟩ ⟨true, .errOther, true, .ok [⟨3, 1, 20, 8⟩]⟩ =
            .ok init ∧
          init.nextReadPosition = ⟨3, 0, 0⟩ :=
  ⟨(newQueue_stateFile_asymmetry ⟨0, 100⟩ ⟨true, .errOther, false, .ok []⟩
        (by decide) rfl).1 rfl,
    ((newQueue_stateFile_asymmetry ⟨0, 100⟩
        ⟨true, .errOther, true, .ok [⟨3, 1, 20, 8⟩]⟩ (by decide) rfl).2
      rfl rfl [⟨3, 1, 20, 8⟩] rfl).1,
    ((newQueue_stateFile_asymmetry ⟨0, 100⟩
        ⟨true, .errOther, true, .ok [⟨3, 1, 20, 8⟩]⟩ (by decide) rfl).2
      rfl rfl [⟨3, 1, 20, 8⟩] rfl).2 ⟨3, 1, 20, 8⟩ rfl⟩

/-- C5: when a disk queue is constructed over an existing directory whose
segments are sorted by strictly increasing id, every existing segment whose
id is below the persisted read position's segmentID goes directly to the
acked (deletion) list, the surviving segments are exactly those with id at
least the persisted segmentID, and if the persisted segmentID precedes the
oldest surviving segment the read position is advanced to that segment's
start (its id with frame index and byte index 0). -/
theorem newQueue_old_segments_acked (s : Settings) (env : FsEnv)
    (segs : List queueSegment) (init : InitResult)
    (hscan : env.scan = .ok segs)
    (hsorted : segs.Pairwise (fun a b => a.id < b.id))
    (hok : NewQueueModel s env = .ok init) :
    init.ackedSegments =
        segs.filter (fun seg => seg.id < (loadedPosition env).segmentID) ∧
      init.readingSegments =
        segs.filter (fun seg => (loadedPosition env).segmentID ≤ seg.id) ∧
      ∀ firstSeg, init.readingSegments.head? = some firstSeg →
        (loadedPosition env).segmentID < firstSeg.id →
        init.nextReadPosition = ⟨firstSeg.id, 0, 0⟩ := by
  obtain ⟨segs2, hscan2, hinit⟩ := newQueueModel_ok_elim s env init hok
  rw [hscan] at hscan2
  injection hscan2 with hsegs
  subst hsegs
  subst hinit
  have hacked :
      (initFromSegments s (adjustLoadedPosition (loadedPosition env))
          segs).ackedSegments =
        segs.takeWhile (fun seg =>
          seg.id < (adjustLoadedPosition (loadedPosition env)).segmentID) :=
    rfl
  have hreading :
      (initFromSegments s (adjustLoadedPosition (loadedPosition env))
          segs).readingSegments =
        segs.dropWhile (fun seg =>
          seg.id < (adjustLoadedPosition (loadedPosition env)).segmentID) :=
    rfl
  have hnext :
      (initFromSegments s (adjustLoadedPosition (loadedPosition env))
          segs).nextReadPosition =
        advanceToFirstSegment (adjustLoadedPosition (loadedPosition env))
          (segs.dropWhile (fun seg =>
            seg.id <
              (adjustLoadedPosition (loadedPosition env)).segmentID)) :=
    rfl
  rw [adjustLoadedPosition_segmentID] at hacked hreading hnext
  refine ⟨?_, ?_, ?_⟩
  · rw [hacked]
    exact takeWhile_lt_eq_filter _ segs hsorted
  · rw [hreading]
    exact dropWhile_lt_eq_filter _ segs hsorted
  · intro firstSeg hhead hlt
    rw [hreading] at hhead
    rw [hnext]
    refine advanceToFirstSegment_advances _ _ firstSeg hhead ?_
    rw [adjustLoadedPosition_segmentID]
    exact hlt

/-- Witness for C5: persisted position at segment 2 over segments 1 and 4:
segment 1 is acked, segment 4 survives, and the position advances to
segment 4's start. -/
theorem newQueue_old_segments_acked_witness :
    (initFromSegments ⟨0, 100⟩
          (adjustLoadedPosition
            (loadedPosition
              ⟨true, .ok ⟨2, 0, 5⟩, true,
                .ok [⟨1, 2, 20, 8⟩, ⟨4, 5, 30, 8⟩]⟩))
          [⟨1, 2, 20, 8⟩, ⟨4, 5, 30, 8⟩]).ackedSegments =
        ([⟨1, 2, 20, 8⟩, ⟨4, 5, 30, 8⟩] : List queueSegment).filter
          (fun seg => seg.id <
            (loadedPosition
              ⟨true, .ok ⟨2, 0, 5⟩, true,
                .ok [⟨1, 2, 20, 8⟩, ⟨4, 5, 30, 8⟩]⟩).segmentID) ∧
      (initFromSegments ⟨0, 100⟩
          (adjustLoadedPosition
            (loadedPosition
              ⟨true, .ok ⟨2, 0, 5⟩, true,
                .ok [⟨1, 2, 20, 8⟩, ⟨4, 5, 30, 8⟩]⟩))
          [⟨1, 2, 20, 8⟩, ⟨4, 5, 30, 8⟩]).readingSegments =
        ([⟨1, 2, 20, 8⟩, ⟨4, 5, 30, 8⟩] : List queueSegment).filter
          (fun seg =>
            (loadedPosition
              ⟨true, .ok ⟨2, 0, 5⟩, true,
                .ok [⟨1, 2, 20, 8⟩, ⟨4, 5, 30, 8⟩]⟩).segmentID ≤ seg.id) ∧
      (initFromSegments ⟨0, 100⟩
          (adjustLoadedPosition
            (loadedPosition
              ⟨true, .ok ⟨2, 0, 5⟩, true,
                .ok [⟨1, 2, 20, 8⟩, ⟨4, 5, 30, 8⟩]⟩))
          [⟨1, 2, 20, 8⟩, ⟨4, 5, 30, 8⟩]).nextReadPosition = ⟨4, 0, 0⟩ := by
  refine ⟨?_, ?_, ?_⟩
  · exact (newQueue_old_segments_acked ⟨0, 100⟩
      ⟨true, .ok ⟨2, 0, 5⟩, true, .ok [⟨1, 2, 20, 8⟩, ⟨4, 5, 30, 8⟩]⟩
      [⟨1, 2, 20, 8⟩, ⟨4, 5, 30, 8⟩] _ rfl (by decide) rfl).1
  · exact (newQueue_old_segments_acked ⟨0, 100⟩
      ⟨true, .ok ⟨2, 0, 5⟩, true, .ok [⟨1, 2, 20, 8⟩, ⟨4, 5, 30, 8⟩]⟩
      [⟨1, 2, 20, 8⟩, ⟨4, 5, 30, 8⟩] _ rfl (by decide) rfl).2.1
  · exact (newQueue_old_segments_acked ⟨0, 100⟩
      ⟨true, .ok ⟨2, 0, 5⟩, true, .ok [⟨1, 2, 20, 8⟩, ⟨4, 5, 30, 8⟩]⟩
      [⟨1, 2, 20, 8⟩, ⟨4, 5, 30, 8⟩] _ rfl (by decide) rfl).2.2
      ⟨4, 5, 30, 8⟩ rfl (by decide)

/-- Values already inside the two's-complement range of a 64-bit signed int
are fixed by the wrap. -/
theorem wrapInt64_eq_self (x : Int) (h1 : -(2 ^ 63) ≤ x) (h2 : x < 2 ^ 63) :
    wrapInt64 x = x := by
  unfold wrapInt64
  have hp : (2 : Int) ^ 63 = 9223372036854775808 := by norm_num
  have hp64 : (2 : Int) ^ 64 = 18446744073709551616 := by norm_num
  rw [hp, hp64]
  rw [hp] at h1 h2
  rw [Int.emod_eq_of_lt (by omega) (by omega)]
  ring

/-- Folding per-segment Int contributions with wrapping Go int addition
equals the cast sum of the corresponding Nat values, as long as the
contributions agree pointwise and the running total never reaches 2^63 (so
no addition wraps). -/
theorem foldl_addInt64_sum (f : queueSegment → Int) (g : queueSegment → Nat) :
    ∀ (l : List queueSegment) (a : Int), (∀ seg ∈ l, f seg = (g seg : Int)) →
      0 ≤ a → a + (((l.map g).sum : Nat) : Int) < 2 ^ 63 →
      l.foldl (fun acc seg => addInt64 acc (f seg)) a =
        a + (((l.map g).sum : Nat) : Int) := by
  intro l
  induction l with
  | nil => intro a _ _ _; simp
  | cons x t ih =>
    intro a h ha hsum
    have hx := h x (List.mem_cons_self x t)
    have ht : ∀ seg ∈ t, f seg = (g seg : Int) := fun seg hs =>
      h seg (List.mem_cons_of_mem x hs)
    have hgx : (0 : Int) ≤ ((g x : Nat) : Int) := Int.natCast_nonneg _
    have hts : (0 : Int) ≤ (((t.map g).sum : Nat) : Int) := Int.natCast_nonneg _
    have hp : (2 : Int) ^ 63 = 9223372036854775808 := by norm_num
    have hsum2 : ((((x :: t).map g).sum : Nat) : Int) =
        ((g x : Nat) : Int) + (((t.map g).sum : Nat) : Int) := by
      simp [List.map_cons, List.sum_cons, Nat.cast_add]
    rw [hsum2] at hsum ⊢
    rw [hp] at hsum
    have hstep : addInt64 a (f x) = a + ((g x : Nat) : Int) := by
      rw [hx]
      unfold addInt64
      apply wrapInt64_eq_self
      · rw [hp]; omega
      · rw [hp]; omega
    rw [List.foldl_cons, hstep,
      ih (a + ((g x : Nat) : Int)) ht (by omega) (by rw [hp]; omega)]
    ring

/-- C8: the initial byte count NewQueue reports to observer.Restore equals
the sum over all existing segments of byteCount minus headerSize (segment
headers are excluded from the capacity accounting exposed to metrics), and
the initial event count equals the sum of the segments' frame counts. The
per-segment hypotheses say each segment's header fits within its byte count
and the uint64 values are in range; the two total bounds keep the Go int
accumulators (modelled with wrapping addInt64) below 2^63, so no addition
wraps. -/
theorem newQueue_restore_counts (s : Settings) (env : FsEnv)
    (segs : List queueSegment) (init : InitResult)
    (hscan : env.scan = .ok segs)
    (hok : NewQueueModel s env = .ok init)
    (hbounds : ∀ seg ∈ segs, seg.headerSize ≤ seg.byteCount ∧
        seg.byteCount < UINT64_MOD ∧
        seg.byteCount - seg.headerSize < 2 ^ 63 ∧ seg.frameCount < 2 ^ 63)
    (hbytes : (segs.map (fun seg => seg.byteCount - seg.headerSize)).sum <
        2 ^ 63)
    (hevents : (segs.map (fun seg => seg.frameCount)).sum < 2 ^ 63) :
    init.restoreByteCount =
        (((segs.map (fun seg => seg.byteCount - seg.headerSize)).sum : Nat) :
          Int) ∧
      init.restoreEventCount =
        (((segs.map (fun seg => seg.frameCount)).sum : Nat) : Int) := by
  obtain ⟨segs2, hscan2, hinit⟩ := newQueueModel_ok_elim s env init hok
  rw [hscan] at hscan2
  injection hscan2 with hsegs
  subst hsegs
  subst hinit
  constructor
  · have hpt : ∀ seg ∈ segs,
        goIntOfUint64 (sub64 seg.byteCount seg.headerSize) =
          ((seg.byteCount - seg.headerSize : Nat) : Int) := by
      intro seg hseg
      obtain ⟨h1, h2, h3, _⟩ := hbounds seg hseg
      have hM : UINT64_MOD = 18446744073709551616 := by norm_num [UINT64_MOD]
      have hsub : sub64 seg.byteCount seg.headerSize =
          seg.byteCount - seg.headerSize := by
        unfold sub64
        rw [hM]
        rw [hM] at h2
        omega
      rw [hsub]
      unfold goIntOfUint64
      rw [if_pos h3]
    have hcast :
        (((segs.map (fun seg => seg.byteCount - seg.headerSize)).sum : Nat) :
          Int) < 2 ^ 63 := by exact_mod_cast hbytes
    have hfold := foldl_addInt64_sum
      (fun seg => goIntOfUint64 (sub64 seg.byteCount seg.headerSize))
      (fun seg => seg.byteCount - seg.headerSize) segs 0 hpt le_rfl
      (by simpa using hcast)
    exact hfold.trans (by simp)
  · have hpt : ∀ seg ∈ segs,
        goIntOfUint64 seg.frameCount = ((seg.frameCount : Nat) : Int) := by
      intro seg hseg
      obtain ⟨_, _, _, h4⟩ := hbounds seg hseg
      unfold goIntOfUint64
      rw [if_pos h4]
    have hcast :
        (((segs.map (fun seg => seg.frameCount)).sum : Nat) : Int) < 2 ^ 63 :=
      by exact_mod_cast hevents
    have hfold := foldl_addInt64_sum (fun seg => goIntOfUint64 seg.frameCount)
      (fun seg => seg.frameCount) segs 0 hpt le_rfl (by simpa using hcast)
    exact hfold.trans (by simp)

/-- Witness for C8 on one segment of 20 bytes with an 8-byte header and two
frames: 12 bytes and 2 events are reported. -/
theorem newQueue_restore_counts_witness :
    (initFromSegments ⟨0, 100⟩
          (adjustLoadedPosition
            (loadedPosition ⟨true, .errNotExist, true, .ok [⟨1, 2, 20, 8⟩]⟩))
          [⟨1, 2, 20, 8⟩]).restoreByteCount =
        (((([⟨1, 2, 20, 8⟩] : List queueSegment).map
            (fun seg => seg.byteCount - seg.headerSize)).sum : Nat) : Int) ∧
      (initFromSegments ⟨0, 100⟩
          (adjustLoadedPosition
            (loadedPosition ⟨true, .errNotExist, true, .ok [⟨1, 2, 20, 8⟩]⟩))
          [⟨1, 2, 20, 8⟩]).restoreEventCount =
        (((([⟨1, 2, 20, 8⟩] : List queueSegment).map
            (fun seg => seg.frameCount)).sum : Nat) : Int) :=
  newQueue_restore_counts ⟨0, 100⟩
    ⟨true, .errNotExist, true, .ok [⟨1, 2, 20, 8⟩]⟩ [⟨1, 2, 20, 8⟩] _ rfl rfl
    (by decide) (by decide) (by decide)

/-- C10: diskQueue.Close always returns nil and its only effect is closing
the queue's close channel; it is not idempotent: a second Close panics,
because Go's close panics on an already-closed channel, so callers must
call Close at most once. -/
theorem diskQueueClose_nil_not_idempotent (dq : diskQueueChans)
    (h : dq.closeClosed = false) :
    diskQueueClose dq = .ok ({ dq with closeClosed := true }, none) ∧
      diskQueueClose { dq with closeClosed := true } =
        .error goPanic.closeOfClosedChan := by
  constructor
  · simp [diskQueueClose, h]
  · simp [diskQueueClose]

/-- Witness for C10: first Close succeeds with a nil error touching only the
close channel, the second Close panics. -/
theorem diskQueueClose_nil_not_idempotent_witness :
    diskQueueClose ⟨false, false⟩ = .ok (⟨true, false⟩, none) ∧
      diskQueueClose ⟨true, false⟩ = .error goPanic.closeOfClosedChan :=
  diskQueueClose_nil_not_idempotent ⟨false, false⟩ rfl

end diskqueue
